import Mathlib

/-!
Shallow embedding of `src/classifier.py` and `src/config/__init__.py`
(ITIS-Enrico-Fermi/Classifier).  External OpenCV / numpy / clock
capabilities are injected through a `CVEnv` record of functions; Python
floats are embedded as exact rationals; fallible Python operations return
`Except PyErr`.  Besides the Python object fields, the state carries
instrumentation counters and a chronological log of the values written
into the timing buffer, so that effect counts (preprocess invocations,
error log lines, buffer writes) are observable in theorems.
-/

set_option autoImplicit false

namespace Classifier

/-- Exceptions the embedded Python code can raise:
`typeError` for item assignment on `None`, `indexError` for a numpy
assignment past the end of the array, `valueError` for `np.amax` of an
empty slice, `nameError` for a reference to an unbound local. -/
inductive PyErr where
  | typeError
  | indexError
  | valueError
  | nameError
  deriving DecidableEq, Repr

/-- Video frame: its dimensions plus an abstract pixel-content tag
(`frame.shape[0]` is the height, `frame.shape[1]` the width). -/
structure Frame where
  width : Nat
  height : Nat
  data : Nat
  deriving DecidableEq, Repr

/-- Detection rectangle `(x, y, w, h)` as returned by `detectMultiScale`. -/
structure Rect where
  x : Nat
  y : Nat
  w : Nat
  h : Nat
  deriving DecidableEq, Repr

/-- Shape enumeration from cvlib (a square detection window is displayed
as an ellipse). -/
inductive Shape where
  | RECTANGLE
  | ELLIPSE
  deriving DecidableEq, Repr

/-- RGB triple. -/
abbrev Color := Nat × Nat × Nat

/-- Value type `Region(x, y, w, h, color, shape)`; the coordinates are
Python floats, embedded as exact rationals. -/
structure Region where
  x : ℚ
  y : ℚ
  w : ℚ
  h : ℚ
  color : Color
  shape : Shape
  deriving DecidableEq, Repr

/-- Loaded `cv.CascadeClassifier`: its native detection window
(`getOriginalWindowSize`) and its `detectMultiScale` capability
(`scaleFactor` is fixed at 1.2 in the source), injected as an external
function of the processed frame. -/
structure Cascade where
  winW : Nat
  winH : Nat
  detectMS : Frame → List Rect

/-- Handle returned by `cv.VideoCapture`: whether it opened, its reported
`CAP_PROP_FRAME_COUNT`, and the finite stream of frames `read` will yield
before returning `None`. -/
structure Capture where
  opened : Bool
  frameCount : Int
  frames : List Frame

/-- Argument of `cv.VideoCapture`: an integer camera index when the source
string is purely numeric, else a file path (line 118 of the source). -/
inductive CapSource where
  | cam (idx : Nat)
  | file (path : String)

/-- External OpenCV / numpy / clock capabilities, injected as functions.
`waitKey` and `clock` are streams indexed by call count; `gray`,
`resizeData` and `equalize` are the pixel-content transforms of
`cv.cvtColor`, `cv.resize` and `cv.equalizeHist`. -/
structure CVEnv where
  imread : String → Frame
  videoCapture : CapSource → Capture
  waitKey : Nat → Nat
  clock : Nat → ℚ
  gray : Nat → Nat
  resizeData : Nat → Nat × Nat → Nat
  equalize : Nat → Nat

/-- Fields of the `Dispatcher` object (`__init__`, lines 16-35).  The
`Display` object's `size` field is held here as `displaySize` (`none`
until `set_orientation` has run). -/
structure Dispatcher where
  modelsCascade : List Cascade
  videoSource : String
  image : Option String
  startTimeInt : Option ℚ
  times : Option (List ℚ)
  timesIndex : Nat
  isFirstFrame : Bool
  colors : List Color
  displaySize : Option (Nat × Nat)

/-- Program state: the `Dispatcher` plus instrumentation counters for the
externally observable effects (clock reads, `waitKey` calls, `imread`
calls, `preprocess` and `detect` invocations, `logging.error` lines) and
the chronological log `written` of the values stored into `times`. -/
structure St where
  d : Dispatcher
  clockCount : Nat
  waitKeyCount : Nat
  imreadCalls : Nat
  preprocessCalls : Nat
  detectCalls : Nat
  errorsLogged : Nat
  written : List ℚ

/-- Fresh state as built by `Dispatcher.__init__` (the colors come from
cvlib's `random_colors`, injected here as a parameter). -/
def mkSt (models : List Cascade) (colors : List Color) (videoSource : String)
    (image : Option String) : St :=
  { d := { modelsCascade := models, videoSource := videoSource, image := image,
           startTimeInt := none, times := none, timesIndex := 0,
           isFirstFrame := true, colors := colors, displaySize := none },
    clockCount := 0, waitKeyCount := 0, imreadCalls := 0,
    preprocessCalls := 0, detectCalls := 0, errorsLogged := 0, written := [] }

/-- Python `str.isnumeric`: nonempty and every character numeric (over
the character list of the string; the sources only use ASCII digits). -/
def strIsNumeric (s : String) : Bool :=
  !s.data.isEmpty && s.data.all Char.isDigit

/-- Modelled from the spec: cvlib's `Display.set_orientation` (cvlib is
code of this repository that is not under src/).  Per the spec, the fixed
working resolution is determined once, from the first frame's dimensions,
oriented to match the frame (landscape or portrait downscale target). -/
def setOrientation (f : Frame) : Nat × Nat :=
  if f.height ≤ f.width then (320, 240) else (240, 320)

/-- Embeds `Dispatcher.preprocess` (lines 52-64): convert to grayscale,
latch the working resolution from the first frame, resize to
`display.size`, histogram-equalize.  Returns the updated state and the
processed frame. -/
def preprocess (env : CVEnv) (st : St) (frame : Frame) : St × Frame :=
  let frameGray : Frame := { frame with data := env.gray frame.data }
  let st1 : St :=
    if st.d.isFirstFrame then
      { st with d.displaySize := some (setOrientation frame), d.isFirstFrame := false }
    else st
  let sz := st1.d.displaySize.getD (0, 0)
  let down : Frame := { width := sz.1, height := sz.2, data := env.resizeData frameGray.data sz }
  let equalized : Frame := { down with data := env.equalize down.data }
  ({ st1 with preprocessCalls := st1.preprocessCalls + 1 }, equalized)

/-- Embeds `Dispatcher.__start_time` (lines 37-41): one `time.time()` read
stored into `start_time_int`. -/
def startTimeStep (env : CVEnv) (st : St) : St :=
  { st with d.startTimeInt := some (env.clock st.clockCount),
            clockCount := st.clockCount + 1 }

/-- Embeds `Dispatcher.__end_time` (lines 43-50): always log the elapsed
time (one `time.time()` read); then, when the source string is not
numeric, store a second elapsed reading at `times[times_index]` and
advance the index.  Assigning an item when `times` is `None` raises
`TypeError`; numpy raises `IndexError` on an assignment past the end of
the array (the source has no bounds check of its own). -/
def endTimeStep (env : CVEnv) (st : St) : Except PyErr St :=
  let st1 : St := { st with clockCount := st.clockCount + 1 }
  if strIsNumeric st1.d.videoSource then .ok st1
  else
    let v : ℚ := env.clock st1.clockCount - st1.d.startTimeInt.getD 0
    let st2 : St := { st1 with clockCount := st1.clockCount + 1 }
    match st2.d.times with
    | none => .error .typeError
    | some l =>
      if st2.d.timesIndex < l.length then
        .ok { st2 with d.times := some (l.set st2.d.timesIndex v),
                       d.timesIndex := st2.d.timesIndex + 1,
                       written := st2.written ++ [v] }
      else .error .indexError

/-- Result of one iteration of the per-model loop of `Dispatcher.detect`. -/
structure ModelOut where
  st : St
  origs : List Region
  procs : List Region
  processed : Frame

/-- Embeds one iteration of the loop of `Dispatcher.detect` (lines 78-89):
choose the shape from the model's native window (`len(set(size)) == 1`
means the two components coincide), preprocess the frame, run
`detectMultiScale`, and emit one working-space `Region` and one rescaled
original-space `Region` per detected rectangle. -/
def processModel (env : CVEnv) (frame : Frame) (st : St) (mc : Cascade × Color) : ModelOut :=
  let m := mc.1
  let color := mc.2
  let shape : Shape := if m.winW = m.winH then .ELLIPSE else .RECTANGLE
  let pr := preprocess env st frame
  let st1 := pr.1
  let objList := m.detectMS pr.2
  let sz := st1.d.displaySize.getD (0, 0)
  let scaleFactorX : ℚ := (frame.width : ℚ) / (sz.1 : ℚ)
  let scaleFactorY : ℚ := (frame.height : ℚ) / (sz.2 : ℚ)
  { st := st1,
    origs := objList.map (fun r =>
      { x := (r.x : ℚ) * scaleFactorX, y := (r.y : ℚ) * scaleFactorY,
        w := (r.w : ℚ) * scaleFactorX, h := (r.h : ℚ) * scaleFactorY,
        color := color, shape := shape }),
    procs := objList.map (fun r =>
      { x := (r.x : ℚ), y := (r.y : ℚ), w := (r.w : ℚ), h := (r.h : ℚ),
        color := color, shape := shape }),
    processed := pr.2 }

/-- Accumulator of the per-model loop: state, the two growing region
lists, and the last value of the Python loop variable `processed_frame`. -/
structure DetectAcc where
  st : St
  origs : List Region
  procs : List Region
  lastProcessed : Option Frame

/-- Loop body of `Dispatcher.detect` as a fold step over
`zip(models_cascade, colors)`. -/
def detectFoldStep (env : CVEnv) (frame : Frame) (acc : DetectAcc) (mc : Cascade × Color) :
    DetectAcc :=
  let out := processModel env frame acc.st mc
  { st := out.st, origs := acc.origs ++ out.origs,
    procs := acc.procs ++ out.procs, lastProcessed := some out.processed }

/-- State and accumulated lists of `Dispatcher.detect` just before the
`__end_time` call: the timer start and the whole per-model loop. -/
def detectAcc (env : CVEnv) (st : St) (frame : Frame) : DetectAcc :=
  let st0 : St := { st with detectCalls := st.detectCalls + 1 }
  let st1 := startTimeStep env st0
  (st1.d.modelsCascade.zip st1.d.colors).foldl (detectFoldStep env frame)
    { st := st1, origs := [], procs := [], lastProcessed := none }

/-- Embeds `Dispatcher.detect` (lines 66-96): start the timer, loop over
the models, stop the timer, and return the original-space regions (plus
the processed frame and its regions when the preview flag is set;
referencing the loop variable `processed_frame` when the loop never ran
raises `NameError`). -/
def detect (env : CVEnv) (st : St) (frame : Frame) (processedFramePreview : Bool) :
    Except PyErr (St × List Region × Option Frame × Option (List Region)) :=
  let acc := detectAcc env st frame
  match endTimeStep env acc.st with
  | .error e => .error e
  | .ok st2 =>
    if processedFramePreview then
      match acc.lastProcessed with
      | some pf => .ok (st2, acc.origs, some pf, some acc.procs)
      | none => .error .nameError
    else .ok (st2, acc.origs, none, none)

/-- Embeds `Dispatcher.detect_and_display` (lines 98-105): run `detect`;
the subsequent `display.show` call only mutates on-screen window state. -/
def detectAndDisplay (env : CVEnv) (st : St) (frame : Frame) (pfp : Bool) :
    Except PyErr St :=
  match detect env st frame pfp with
  | .error e => .error e
  | .ok r => .ok r.1

/-- Embeds `np.average` of a slice: the arithmetic mean (the empty slice
is never reached in `start`, because `np.amax` raises first). -/
def npAverage (l : List ℚ) : ℚ := l.sum / l.length

/-- Embeds `np.amax` of a nonempty slice (left fold of `max`). -/
def npAmax : List ℚ → ℚ
  | [] => 0
  | x :: xs => xs.foldl max x

/-- Embeds `np.amin` of a nonempty slice (left fold of `min`). -/
def npAmin : List ℚ → ℚ
  | [] => 0
  | x :: xs => xs.foldl min x

/-- The slice `self.times[: self.times_index]` (empty when `times` is
`None`). -/
def filledSlice (st : St) : List ℚ :=
  match st.d.times with
  | none => []
  | some l => l.take st.d.timesIndex

/-- Embeds `int(source) if str.isnumeric(source) else source` (line 118). -/
def capSourceOf (src : String) : CapSource :=
  if strIsNumeric src then .cam ((src.toNat?).getD 0) else .file src

/-- Python truthiness of the optional image path (`if self.image:`):
`None` and the empty string are falsy. -/
def truthy : Option String → Bool
  | none => false
  | some s => !s.data.isEmpty

/-- One `cv.waitKey` call: the pressed key from the injected stream, and
the state with the call counter advanced. -/
def takeKey (env : CVEnv) (st : St) : Nat × St :=
  (env.waitKey st.waitKeyCount, { st with waitKeyCount := st.waitKeyCount + 1 })

/-- Observable outcome of `Dispatcher.start`: the process exit status,
whether control fell through to the `cv.VideoCapture` call
(`reachedStreaming`), whether the body of the read loop was entered
(`enteredLoop`), the end-of-run (average, max, min) statistics when they
were computed, and the final state. -/
structure RunOutcome where
  exitCode : Nat
  reachedStreaming : Bool
  enteredLoop : Bool
  stats : Option (ℚ × ℚ × ℚ)
  final : St

/-- Embeds the `while True` read loop (lines 125-131), driven by the
finite frame stream of the capture: `read` past the end yields `None`,
which breaks the loop; the escape key (27) breaks it early. -/
def runLoop (env : CVEnv) (pfp : Bool) : St → List Frame → Except PyErr St
  | st, [] => .ok st
  | st, frame :: rest =>
    match detectAndDisplay env st frame pfp with
    | .error e => .error e
    | .ok st1 =>
      let k := takeKey env st1
      if k.1 = 27 then .ok k.2 else runLoop env pfp k.2 rest

/-- Embeds lines 119-121 of `Dispatcher.start`: query
`CAP_PROP_FRAME_COUNT` and pre-allocate the timing buffer (as
`np.empty(frames_number)`) exactly when the reported count is positive. -/
def allocSt (env : CVEnv) (st : St) : St :=
  if 0 < (env.videoCapture (capSourceOf st.d.videoSource)).frameCount then
    { st with d.times := some (List.replicate (env.videoCapture (capSourceOf st.d.videoSource)).frameCount.toNat 0) }
  else st

/-- Embeds lines 132-136 of `Dispatcher.start`: after the loop, for a
positive reported frame count, compute average, max and min over
`times[: times_index]` (`np.amax` raises `ValueError` on an empty slice). -/
def postLoop (framesNumber : Int) (st2 : St) : Except PyErr RunOutcome :=
  if 0 < framesNumber then
    if (filledSlice st2).isEmpty then .error .valueError
    else .ok { exitCode := 0, reachedStreaming := true, enteredLoop := true,
               stats := some (npAverage (filledSlice st2), npAmax (filledSlice st2),
                              npAmin (filledSlice st2)),
               final := st2 }
  else
    .ok { exitCode := 0, reachedStreaming := true, enteredLoop := true,
          stats := none, final := st2 }

/-- Embeds the streaming part of `Dispatcher.start` (lines 118-136): open
the capture, query the frame count, allocate `times` when the count is
positive, log an error and `exit(1)` when the capture is not opened, else
run the read loop and report the end-of-run statistics. -/
def streamingPhase (env : CVEnv) (st : St) (pfp : Bool) : Except PyErr RunOutcome :=
  let cap := env.videoCapture (capSourceOf st.d.videoSource)
  let st1 : St := allocSt env st
  if cap.opened then
    match runLoop env pfp st1 cap.frames with
    | .error e => .error e
    | .ok st2 => postLoop cap.frameCount st2
  else
    .ok { exitCode := 1, reachedStreaming := true, enteredLoop := false,
          stats := none, final := { st1 with errorsLogged := st1.errorsLogged + 1 } }

/-- Embeds `Dispatcher.start` (lines 107-136).  In single-image mode the
function returns only when the pressed key is escape (27); on any other
key, control falls through into streaming mode. -/
def start (env : CVEnv) (st : St) (pfp : Bool) : Except PyErr RunOutcome :=
  if truthy st.d.image then
    let img := env.imread (st.d.image.getD "")
    let st1 : St := { st with imreadCalls := st.imreadCalls + 1 }
    match detectAndDisplay env st1 img pfp with
    | .error e => .error e
    | .ok st2 =>
      let k := takeKey env st2
      if k.1 = 27 then
        .ok { exitCode := 0, reachedStreaming := false, enteredLoop := false,
              stats := none, final := k.2 }
      else streamingPhase env k.2 pfp
  else streamingPhase env st pfp

/-- Raw integer values read out of the optional YAML file, already
converted by `int(...)` as in `src/config/__init__.py` lines 14-23. -/
structure RawYaml where
  minFaceW : Int
  minFaceH : Int
  minBodyW : Int
  minBodyH : Int
  maxFaceW : Int
  maxFaceH : Int
  maxBodyW : Int
  maxBodyH : Int

/-- Min/max width-height boundary pair for one detected-object category. -/
structure CategoryBounds where
  min : Int × Int
  max : Int × Int

/-- The module-level `config_boundarys` value: the empty tuple when the
optional file is missing, else the parsed nested dictionary. -/
inductive ConfigBoundarys where
  | missing
  | loaded (face body : CategoryBounds)

/-- Embeds `src/config/__init__.py` lines 11-23: when `config.yml` does
not exist, `config_boundarys` stays the empty tuple (no error); otherwise
the face and body min/max boundaries are parsed from the YAML contents. -/
def configBoundarysLoad (fileExists : Bool) (cb : RawYaml) : ConfigBoundarys :=
  if fileExists then
    .loaded { min := (cb.minFaceW, cb.minFaceH), max := (cb.maxFaceW, cb.maxFaceH) }
            { min := (cb.minBodyW, cb.minBodyH), max := (cb.maxBodyW, cb.maxBodyH) }
  else .missing

/-- The detection step in the presence of the ambient module-level
boundary configuration: `classifier.py` neither imports nor references
`config.config_boundarys`, so the configuration is not consumed. -/
def detectWithConfig (_cfg : ConfigBoundarys) (env : CVEnv) (st : St) (frame : Frame)
    (pfp : Bool) : Except PyErr (St × List Region × Option Frame × Option (List Region)) :=
  detect env st frame pfp

/-- Spec-side rescaling map of a working-space region by the two scale
factors: `(x, y, w, h) ↦ (x*sx, y*sy, w*sx, h*sy)`. -/
def specRescale (sx sy : ℚ) (r : Region) : Region :=
  { r with x := r.x * sx, y := r.y * sy, w := r.w * sx, h := r.h * sy }

/-- Shape selection as a function of a model's native detection window. -/
def shapeForWindow (w h : Nat) : Shape :=
  if w = h then .ELLIPSE else .RECTANGLE

/-- Exit code of a `start` outcome, when no exception escaped. -/
def exitCodeOf : Except PyErr RunOutcome → Option Nat
  | .ok o => some o.exitCode
  | .error _ => none

/-- Loop-entry flag of a `start` outcome, when no exception escaped. -/
def enteredLoopOf : Except PyErr RunOutcome → Option Bool
  | .ok o => some o.enteredLoop
  | .error _ => none

/-- Streaming-reached flag of a `start` outcome, when no exception escaped. -/
def reachedStreamingOf : Except PyErr RunOutcome → Option Bool
  | .ok o => some o.reachedStreaming
  | .error _ => none

/-- Error-log counter of a `start` outcome, when no exception escaped. -/
def errorsLoggedOf : Except PyErr RunOutcome → Option Nat
  | .ok o => some o.final.errorsLogged
  | .error _ => none

/-- Statistics of a `start` outcome, when no exception escaped. -/
def statsOf : Except PyErr RunOutcome → Option (Option (ℚ × ℚ × ℚ))
  | .ok o => some o.stats
  | .error _ => none

/-- Preprocess-invocation counter of a `detect` result. -/
def preprocessCallsOf :
    Except PyErr (St × List Region × Option Frame × Option (List Region)) → Option Nat
  | .ok r => some r.1.preprocessCalls
  | .error _ => none

/-- Iterated `preprocess` over a stream of frames (the state evolution the
first-frame latch governs across a run). -/
def preprocessRun (env : CVEnv) (st : St) (frames : List Frame) : St :=
  frames.foldl (fun s f => (preprocess env s f).1) st

/-- Timing-buffer invariant: the filled slice of `times` is exactly the
chronological log of written values, whose length is `times_index`, and an
unallocated buffer has an empty log. -/
def TimingInv (st : St) : Prop :=
  filledSlice st = st.written ∧ st.written.length = st.d.timesIndex ∧
    (st.d.times = none → st.written = [])

section Lemmas

variable (env : CVEnv)

lemma listTakeSetSucc {α : Type} : ∀ (l : List α) (i : Nat) (v : α), i < l.length →
    (l.set i v).take (i + 1) = l.take i ++ [v]
  | [], i, v, h => absurd h (by simp)
  | a :: l, 0, v, _ => by simp
  | a :: l, i + 1, v, h => by
      have ih := listTakeSetSucc l i v (by simpa using h)
      simp [List.set, List.take, ih]

lemma preprocess_fst_eq (st : St) (f : Frame) : (preprocess env st f).1 =
    { st with
      d.displaySize := if st.d.isFirstFrame then some (setOrientation f) else st.d.displaySize,
      d.isFirstFrame := false,
      preprocessCalls := st.preprocessCalls + 1 } := by
  cases h : st.d.isFirstFrame
  · simp [preprocess, h]
    rw [← h]
  · simp [preprocess, h]

lemma preprocess_snd_eq (st : St) (f : Frame) (h : st.d.isFirstFrame = false) :
    (preprocess env st f).2 =
      { width := (st.d.displaySize.getD (0, 0)).1, height := (st.d.displaySize.getD (0, 0)).2,
        data := env.equalize (env.resizeData (env.gray f.data) (st.d.displaySize.getD (0, 0))) } := by
  simp [preprocess, h]

lemma startTimeStep_eq (st : St) : startTimeStep env st =
    { st with d.startTimeInt := some (env.clock st.clockCount),
              clockCount := st.clockCount + 1 } := rfl

lemma endTimeStep_numeric (st : St) (h : strIsNumeric st.d.videoSource = true) :
    endTimeStep env st = .ok { st with clockCount := st.clockCount + 1 } := by
  simp [endTimeStep, h]

lemma endTimeStep_noBuffer (st : St) (hn : strIsNumeric st.d.videoSource = false)
    (ht : st.d.times = none) : endTimeStep env st = .error .typeError := by
  simp [endTimeStep, hn, ht]

lemma endTimeStep_write (st : St) (l : List ℚ) (hn : strIsNumeric st.d.videoSource = false)
    (ht : st.d.times = some l) (hlt : st.d.timesIndex < l.length) :
    endTimeStep env st = .ok { st with
      clockCount := st.clockCount + 2,
      d.times := some (l.set st.d.timesIndex
        (env.clock (st.clockCount + 1) - st.d.startTimeInt.getD 0)),
      d.timesIndex := st.d.timesIndex + 1,
      written := st.written ++ [env.clock (st.clockCount + 1) - st.d.startTimeInt.getD 0] } := by
  simp [endTimeStep, hn, ht, hlt]

lemma endTimeStep_oob (st : St) (l : List ℚ) (hn : strIsNumeric st.d.videoSource = false)
    (ht : st.d.times = some l) (hge : ¬ st.d.timesIndex < l.length) :
    endTimeStep env st = .error .indexError := by
  simp [endTimeStep, hn, ht, hge]

lemma processModel_st (frame : Frame) (st : St) (mc : Cascade × Color) :
    (processModel env frame st mc).st = (preprocess env st frame).1 := rfl

lemma detectFoldStep_st (frame : Frame) (acc : DetectAcc) (mc : Cascade × Color) :
    (detectFoldStep env frame acc mc).st = (preprocess env acc.st frame).1 := rfl

/-- Any state observation unchanged by `preprocess` is unchanged by the
whole per-model fold of `detect`. -/
lemma detectFold_pres {α : Type} (frame : Frame) (g : St → α)
    (hpre : ∀ (s : St) (f : Frame), g (preprocess env s f).1 = g s) :
    ∀ (mcs : List (Cascade × Color)) (acc : DetectAcc),
      g ((mcs.foldl (detectFoldStep env frame) acc).st) = g acc.st := by
  intro mcs
  induction mcs with
  | nil => intro acc; rfl
  | cons mc rest ih =>
      intro acc
      rw [List.foldl_cons, ih]
      rw [detectFoldStep_st]
      exact hpre acc.st frame

lemma detectAcc_times (st : St) (frame : Frame) :
    (detectAcc env st frame).st.d.times = st.d.times := by
  unfold detectAcc
  exact detectFold_pres env frame (fun s => s.d.times)
    (fun s f => by simp [preprocess_fst_eq]) _ _

lemma detectAcc_timesIndex (st : St) (frame : Frame) :
    (detectAcc env st frame).st.d.timesIndex = st.d.timesIndex := by
  unfold detectAcc
  exact detectFold_pres env frame (fun s => s.d.timesIndex)
    (fun s f => by simp [preprocess_fst_eq]) _ _

lemma detectAcc_written (st : St) (frame : Frame) :
    (detectAcc env st frame).st.written = st.written := by
  unfold detectAcc
  exact detectFold_pres env frame (fun s => s.written)
    (fun s f => by simp [preprocess_fst_eq]) _ _

lemma detectAcc_source (st : St) (frame : Frame) :
    (detectAcc env st frame).st.d.videoSource = st.d.videoSource := by
  unfold detectAcc
  exact detectFold_pres env frame (fun s => s.d.videoSource)
    (fun s f => by simp [preprocess_fst_eq]) _ _

lemma detectAcc_waitKeyCount (st : St) (frame : Frame) :
    (detectAcc env st frame).st.waitKeyCount = st.waitKeyCount := by
  unfold detectAcc
  exact detectFold_pres env frame (fun s => s.waitKeyCount)
    (fun s f => by simp [preprocess_fst_eq]) _ _

lemma detectAcc_errorsLogged (st : St) (frame : Frame) :
    (detectAcc env st frame).st.errorsLogged = st.errorsLogged := by
  unfold detectAcc
  exact detectFold_pres env frame (fun s => s.errorsLogged)
    (fun s f => by simp [preprocess_fst_eq]) _ _

lemma detectAcc_imreadCalls (st : St) (frame : Frame) :
    (detectAcc env st frame).st.imreadCalls = st.imreadCalls := by
  unfold detectAcc
  exact detectFold_pres env frame (fun s => s.imreadCalls)
    (fun s f => by simp [preprocess_fst_eq]) _ _

lemma detectAcc_image (st : St) (frame : Frame) :
    (detectAcc env st frame).st.d.image = st.d.image := by
  unfold detectAcc
  exact detectFold_pres env frame (fun s => s.d.image)
    (fun s f => by simp [preprocess_fst_eq]) _ _

lemma detectAcc_detectCalls (st : St) (frame : Frame) :
    (detectAcc env st frame).st.detectCalls = st.detectCalls + 1 := by
  unfold detectAcc
  exact detectFold_pres env frame (fun s => s.detectCalls)
    (fun s f => by simp [preprocess_fst_eq]) _ _

/-- Everything `__end_time` leaves untouched when it returns normally. -/
lemma endTimeStep_ok_fields (s s' : St) (h : endTimeStep env s = .ok s') :
    s'.d.videoSource = s.d.videoSource ∧ s'.waitKeyCount = s.waitKeyCount ∧
    s'.errorsLogged = s.errorsLogged ∧ s'.imreadCalls = s.imreadCalls ∧
    s'.detectCalls = s.detectCalls ∧ s'.d.image = s.d.image := by
  cases hn : strIsNumeric s.d.videoSource
  · cases ht : s.d.times
    · rw [endTimeStep_noBuffer env s hn ht] at h
      exact absurd h (by simp)
    · rename_i l
      by_cases hlt : s.d.timesIndex < l.length
      · rw [endTimeStep_write env s l hn ht hlt] at h
        cases h
        exact ⟨rfl, rfl, rfl, rfl, rfl, rfl⟩
      · rw [endTimeStep_oob env s l hn ht hlt] at h
        exact absurd h (by simp)
  · rw [endTimeStep_numeric env s hn] at h
    cases h
    exact ⟨rfl, rfl, rfl, rfl, rfl, rfl⟩

/-- Successful `detect` runs all funnel through a successful `__end_time`
on the accumulated state, and return its state. -/
lemma detect_ok_endTime (st : St) (frame : Frame) (pfp : Bool) (st' : St)
    (a : List Region) (b : Option Frame) (c : Option (List Region))
    (h : detect env st frame pfp = .ok (st', a, b, c)) :
    endTimeStep env (detectAcc env st frame).st = .ok st' := by
  simp only [detect] at h
  cases he : endTimeStep env (detectAcc env st frame).st
  · rw [he] at h
    exact absurd h (by simp)
  · rw [he] at h
    cases pfp
    · simp only [Bool.false_eq_true, if_false] at h
      simp only [Except.ok.injEq, Prod.mk.injEq] at h
      rw [h.1]
    · simp only [if_true] at h
      cases hl : (detectAcc env st frame).lastProcessed
      · rw [hl] at h
        exact absurd h (by simp)
      · rw [hl] at h
        simp only [Except.ok.injEq, Prod.mk.injEq] at h
        rw [h.1]

/-- A `detect` call that raises no exception preserves the video source,
the `waitKey` and `imread` counters, the error-log counter and the image
path, and bumps the detect counter by one. -/
lemma detect_ok_book (st : St) (frame : Frame) (pfp : Bool) (st' : St)
    (a : List Region) (b : Option Frame) (c : Option (List Region))
    (h : detect env st frame pfp = .ok (st', a, b, c)) :
    st'.d.videoSource = st.d.videoSource ∧ st'.waitKeyCount = st.waitKeyCount ∧
    st'.errorsLogged = st.errorsLogged ∧ st'.imreadCalls = st.imreadCalls ∧
    st'.detectCalls = st.detectCalls + 1 ∧ st'.d.image = st.d.image := by
  have he := detect_ok_endTime env st frame pfp st' a b c h
  have hf := endTimeStep_ok_fields env _ _ he
  refine ⟨?_, ?_, ?_, ?_, ?_, ?_⟩
  · rw [hf.1, detectAcc_source]
  · rw [hf.2.1, detectAcc_waitKeyCount]
  · rw [hf.2.2.1, detectAcc_errorsLogged]
  · rw [hf.2.2.2.1, detectAcc_imreadCalls]
  · rw [hf.2.2.2.2.1, detectAcc_detectCalls]
  · rw [hf.2.2.2.2.2, detectAcc_image]

/-- With a numeric (camera) source, `__end_time` performs no buffer write:
a successful `detect` leaves `times`, `times_index` and the write log
unchanged. -/
lemma detect_ok_numeric (st : St) (frame : Frame) (pfp : Bool) (st' : St)
    (a : List Region) (b : Option Frame) (c : Option (List Region))
    (hn : strIsNumeric st.d.videoSource = true)
    (h : detect env st frame pfp = .ok (st', a, b, c)) :
    st'.d.times = st.d.times ∧ st'.d.timesIndex = st.d.timesIndex ∧
    st'.written = st.written := by
  have he := detect_ok_endTime env st frame pfp st' a b c h
  rw [endTimeStep_numeric env _ (by rw [detectAcc_source]; exact hn)] at he
  cases he
  refine ⟨?_, ?_, ?_⟩
  · show (detectAcc env st frame).st.d.times = st.d.times
    exact detectAcc_times env st frame
  · show (detectAcc env st frame).st.d.timesIndex = st.d.timesIndex
    exact detectAcc_timesIndex env st frame
  · show (detectAcc env st frame).st.written = st.written
    exact detectAcc_written env st frame

/-- With a non-numeric source and an unallocated buffer, the first timing
write is an item assignment on `None`: `detect` raises `TypeError`. -/
lemma detect_noBuffer (st : St) (frame : Frame) (pfp : Bool)
    (hn : strIsNumeric st.d.videoSource = false) (ht : st.d.times = none) :
    detect env st frame pfp = .error .typeError := by
  simp only [detect]
  rw [endTimeStep_noBuffer env _ (by rw [detectAcc_source]; exact hn)
      (by rw [detectAcc_times]; exact ht)]

/-- `filledSlice` only looks at `times` and `times_index`. -/
lemma filledSlice_congr (s s' : St) (h1 : s'.d.times = s.d.times)
    (h2 : s'.d.timesIndex = s.d.timesIndex) : filledSlice s' = filledSlice s := by
  unfold filledSlice
  rw [h1, h2]

lemma timingInv_fields (s s' : St) (h1 : s'.d.times = s.d.times)
    (h2 : s'.d.timesIndex = s.d.timesIndex) (h3 : s'.written = s.written)
    (hi : TimingInv s) : TimingInv s' := by
  obtain ⟨i1, i2, i3⟩ := hi
  refine ⟨?_, ?_, ?_⟩
  · rw [filledSlice_congr s s' h1 h2, h3]
    exact i1
  · rw [h3, h2]
    exact i2
  · intro hn
    rw [h3]
    exact i3 (h1 ▸ hn)

/-- One successful `__end_time` preserves the timing-buffer invariant. -/
lemma endTimeStep_ok_inv (s s' : St) (h : endTimeStep env s = .ok s')
    (hi : TimingInv s) : TimingInv s' := by
  cases hn : strIsNumeric s.d.videoSource
  · cases ht : s.d.times
    · rw [endTimeStep_noBuffer env s hn ht] at h
      exact absurd h (by simp)
    · rename_i l
      by_cases hlt : s.d.timesIndex < l.length
      · rw [endTimeStep_write env s l hn ht hlt] at h
        cases h
        obtain ⟨i1, i2, i3⟩ := hi
        refine ⟨?_, ?_, ?_⟩
        · show (l.set s.d.timesIndex _).take (s.d.timesIndex + 1) = s.written ++ [_]
          rw [listTakeSetSucc l s.d.timesIndex _ hlt]
          have : l.take s.d.timesIndex = s.written := by
            have := i1
            unfold filledSlice at this
            rw [ht] at this
            exact this
          rw [this]
        · show (s.written ++ [_]).length = s.d.timesIndex + 1
          rw [List.length_append, i2]
          rfl
        · intro hc
          exact absurd hc (by simp)
      · rw [endTimeStep_oob env s l hn ht hlt] at h
        exact absurd h (by simp)
  · rw [endTimeStep_numeric env s hn] at h
    cases h
    exact timingInv_fields s _ rfl rfl rfl hi

/-- The whole `detect` call preserves the timing-buffer invariant. -/
lemma detect_ok_inv (st : St) (frame : Frame) (pfp : Bool) (st' : St)
    (a : List Region) (b : Option Frame) (c : Option (List Region))
    (h : detect env st frame pfp = .ok (st', a, b, c)) (hi : TimingInv st) :
    TimingInv st' := by
  have he := detect_ok_endTime env st frame pfp st' a b c h
  refine endTimeStep_ok_inv env _ _ he ?_
  exact timingInv_fields st _ (detectAcc_times env st frame)
    (detectAcc_timesIndex env st frame) (detectAcc_written env st frame) hi

/-- Successful `detect_and_display` is a successful `detect`. -/
lemma detectAndDisplay_ok (st : St) (frame : Frame) (pfp : Bool) (st' : St)
    (h : detectAndDisplay env st frame pfp = .ok st') :
    ∃ a b c, detect env st frame pfp = .ok (st', a, b, c) := by
  unfold detectAndDisplay at h
  cases hd : detect env st frame pfp
  · rw [hd] at h
    exact absurd h (by simp)
  · rename_i r
    rw [hd] at h
    obtain ⟨r1, r2, r3, r4⟩ := r
    simp only [Except.ok.injEq] at h
    rw [← h]
    exact ⟨r2, r3, r4, rfl⟩

/-- A `detect` that preserves `times = none` on success. -/
lemma detect_ok_times_none (st : St) (frame : Frame) (pfp : Bool) (st' : St)
    (a : List Region) (b : Option Frame) (c : Option (List Region))
    (h : detect env st frame pfp = .ok (st', a, b, c)) (ht : st.d.times = none) :
    st'.d.times = none := by
  cases hn : strIsNumeric st.d.videoSource
  · rw [detect_noBuffer env st frame pfp hn ht] at h
    exact absurd h (by simp)
  · have := detect_ok_numeric env st frame pfp st' a b c hn h
    rw [this.1, ht]

lemma takeKey_snd_fields (st : St) :
    (takeKey env st).2.d = st.d ∧ (takeKey env st).2.written = st.written ∧
    (takeKey env st).2.errorsLogged = st.errorsLogged ∧
    (takeKey env st).2.detectCalls = st.detectCalls ∧
    (takeKey env st).2.imreadCalls = st.imreadCalls := ⟨rfl, rfl, rfl, rfl, rfl⟩

lemma takeKey_inv (st : St) (hi : TimingInv st) : TimingInv (takeKey env st).2 :=
  timingInv_fields st _ rfl rfl rfl hi

/-- The read loop preserves the timing-buffer invariant. -/
lemma runLoop_ok_inv (pfp : Bool) : ∀ (frames : List Frame) (st st' : St),
    runLoop env pfp st frames = .ok st' → TimingInv st → TimingInv st'
  | [], st, st', h, hi => by
      cases h
      exact hi
  | frame :: rest, st, st', h, hi => by
      unfold runLoop at h
      cases hd : detectAndDisplay env st frame pfp
      · rw [hd] at h
        exact absurd h (by simp)
      · rename_i st1
        rw [hd] at h
        dsimp only at h
        obtain ⟨a, b, c, hdet⟩ := detectAndDisplay_ok env st frame pfp st1 hd
        have hi1 : TimingInv st1 := detect_ok_inv env st frame pfp st1 a b c hdet hi
        have hi2 : TimingInv (takeKey env st1).2 := takeKey_inv env st1 hi1
        by_cases hk : (takeKey env st1).1 = 27
        · rw [if_pos hk] at h
          cases h
          exact hi2
        · rw [if_neg hk] at h
          exact runLoop_ok_inv pfp rest _ st' h hi2

/-- The read loop never changes the video source or the error-log count. -/
lemma runLoop_ok_book (pfp : Bool) : ∀ (frames : List Frame) (st st' : St),
    runLoop env pfp st frames = .ok st' →
    st'.d.videoSource = st.d.videoSource ∧ st'.errorsLogged = st.errorsLogged
  | [], st, st', h => by
      cases h
      exact ⟨rfl, rfl⟩
  | frame :: rest, st, st', h => by
      unfold runLoop at h
      cases hd : detectAndDisplay env st frame pfp
      · rw [hd] at h
        exact absurd h (by simp)
      · rename_i st1
        rw [hd] at h
        dsimp only at h
        obtain ⟨a, b, c, hdet⟩ := detectAndDisplay_ok env st frame pfp st1 hd
        have hb := detect_ok_book env st frame pfp st1 a b c hdet
        by_cases hk : (takeKey env st1).1 = 27
        · rw [if_pos hk] at h
          cases h
          exact ⟨hb.1, hb.2.2.1⟩
        · rw [if_neg hk] at h
          have ih := runLoop_ok_book pfp rest _ st' h
          refine ⟨?_, ?_⟩
          · rw [ih.1]
            show st1.d.videoSource = st.d.videoSource
            exact hb.1
          · rw [ih.2]
            show st1.errorsLogged = st.errorsLogged
            exact hb.2.2.1

/-- With a numeric (camera) source the read loop performs no buffer write. -/
lemma runLoop_ok_numeric (pfp : Bool) : ∀ (frames : List Frame) (st st' : St),
    strIsNumeric st.d.videoSource = true →
    runLoop env pfp st frames = .ok st' →
    st'.written = st.written ∧ st'.d.timesIndex = st.d.timesIndex
  | [], st, st', _, h => by
      cases h
      exact ⟨rfl, rfl⟩
  | frame :: rest, st, st', hn, h => by
      unfold runLoop at h
      cases hd : detectAndDisplay env st frame pfp
      · rw [hd] at h
        exact absurd h (by simp)
      · rename_i st1
        rw [hd] at h
        dsimp only at h
        obtain ⟨a, b, c, hdet⟩ := detectAndDisplay_ok env st frame pfp st1 hd
        have hb := detect_ok_book env st frame pfp st1 a b c hdet
        have hnum := detect_ok_numeric env st frame pfp st1 a b c hn hdet
        by_cases hk : (takeKey env st1).1 = 27
        · rw [if_pos hk] at h
          cases h
          exact ⟨hnum.2.2, hnum.2.1⟩
        · rw [if_neg hk] at h
          have hn1 : strIsNumeric (takeKey env st1).2.d.videoSource = true := by
            show strIsNumeric st1.d.videoSource = true
            rw [hb.1]
            exact hn
          have ih := runLoop_ok_numeric pfp rest _ st' hn1 h
          refine ⟨?_, ?_⟩
          · rw [ih.1]
            show st1.written = st.written
            exact hnum.2.2
          · rw [ih.2]
            show st1.d.timesIndex = st.d.timesIndex
            exact hnum.2.1

/-- Fields the buffer pre-allocation leaves untouched. -/
lemma allocSt_fields (st : St) :
    (allocSt env st).d.videoSource = st.d.videoSource ∧
    (allocSt env st).d.timesIndex = st.d.timesIndex ∧
    (allocSt env st).written = st.written ∧
    (allocSt env st).errorsLogged = st.errorsLogged := by
  unfold allocSt
  split <;> exact ⟨rfl, rfl, rfl, rfl⟩

/-- On a fresh (never-written) state, pre-allocating the buffer
re-establishes the timing invariant. -/
lemma allocSt_inv (st : St) (hi : TimingInv st) (htn : st.d.times = none) :
    TimingInv (allocSt env st) := by
  obtain ⟨i1, i2, i3⟩ := hi
  have hw : st.written = [] := i3 htn
  have hidx : st.d.timesIndex = 0 := by rw [← i2, hw]; rfl
  unfold allocSt
  split
  · refine ⟨?_, ?_, ?_⟩
    · show (List.replicate _ (0 : ℚ)).take st.d.timesIndex = st.written
      rw [hidx, hw]
      rfl
    · rw [hw, hidx]
      rfl
    · intro hc
      exact absurd hc (by simp)
  · exact ⟨i1, i2, i3⟩

lemma streamingPhase_eq_opened (st : St) (pfp : Bool)
    (ho : (env.videoCapture (capSourceOf st.d.videoSource)).opened = true) :
    streamingPhase env st pfp =
      match runLoop env pfp (allocSt env st)
          (env.videoCapture (capSourceOf st.d.videoSource)).frames with
      | .error e => .error e
      | .ok st2 => postLoop (env.videoCapture (capSourceOf st.d.videoSource)).frameCount st2 := by
  simp [streamingPhase, ho]

lemma streamingPhase_eq_notOpened (st : St) (pfp : Bool)
    (ho : (env.videoCapture (capSourceOf st.d.videoSource)).opened = false) :
    streamingPhase env st pfp =
      .ok { exitCode := 1, reachedStreaming := true, enteredLoop := false, stats := none,
            final := { allocSt env st with
                       errorsLogged := (allocSt env st).errorsLogged + 1 } } := by
  simp [streamingPhase, ho]

/-- Characterization of a normal return of the after-loop report. -/
lemma postLoop_ok_out (fn : Int) (st2 : St) (out : RunOutcome)
    (h : postLoop fn st2 = .ok out) :
    out.final = st2 ∧ out.exitCode = 0 ∧ out.enteredLoop = true ∧
    out.reachedStreaming = true ∧
    (∀ q, out.stats = some q →
      (filledSlice st2).isEmpty = false ∧
      q = (npAverage (filledSlice st2), npAmax (filledSlice st2), npAmin (filledSlice st2))) := by
  unfold postLoop at h
  split at h
  · split at h
    · exact absurd h (by simp)
    · rename_i hne
      cases h
      refine ⟨rfl, rfl, rfl, rfl, ?_⟩
      intro q hq
      simp only [Option.some.injEq] at hq
      exact ⟨by simpa using hne, hq.symm⟩
  · cases h
    refine ⟨rfl, rfl, rfl, rfl, ?_⟩
    intro q hq
    exact absurd hq (by simp)

/-- Unopenable capture: error logged, exit status 1, loop not entered. -/
lemma streamingPhase_notOpened (st : St) (pfp : Bool)
    (ho : (env.videoCapture (capSourceOf st.d.videoSource)).opened = false) :
    ∃ fin, streamingPhase env st pfp = .ok ⟨1, true, false, none, fin⟩ ∧
      fin.errorsLogged = st.errorsLogged + 1 := by
  rw [streamingPhase_eq_notOpened env st pfp ho]
  refine ⟨_, rfl, ?_⟩
  show (allocSt env st).errorsLogged + 1 = st.errorsLogged + 1
  rw [(allocSt_fields env st).2.2.2]

/-- Every normal return of the streaming phase has fallen through to the
`VideoCapture` call. -/
lemma streamingPhase_ok_reached (st : St) (pfp : Bool) (out : RunOutcome)
    (h : streamingPhase env st pfp = .ok out) : out.reachedStreaming = true := by
  cases ho : (env.videoCapture (capSourceOf st.d.videoSource)).opened
  · rw [streamingPhase_eq_notOpened env st pfp ho] at h
    cases h
    rfl
  · rw [streamingPhase_eq_opened env st pfp ho] at h
    cases hr : runLoop env pfp (allocSt env st)
        (env.videoCapture (capSourceOf st.d.videoSource)).frames
    · rw [hr] at h
      exact absurd h (by simp)
    · rw [hr] at h
      exact (postLoop_ok_out _ _ _ h).2.2.2.1

/-- When the capture opens, a normal return of the streaming phase has
exit status 0 and has entered the read loop. -/
lemma streamingPhase_ok_opened (st : St) (pfp : Bool) (out : RunOutcome)
    (ho : (env.videoCapture (capSourceOf st.d.videoSource)).opened = true)
    (h : streamingPhase env st pfp = .ok out) :
    out.exitCode = 0 ∧ out.enteredLoop = true := by
  rw [streamingPhase_eq_opened env st pfp ho] at h
  cases hr : runLoop env pfp (allocSt env st)
      (env.videoCapture (capSourceOf st.d.videoSource)).frames
  · rw [hr] at h
    exact absurd h (by simp)
  · rw [hr] at h
    have := postLoop_ok_out _ _ _ h
    exact ⟨this.2.1, this.2.2.1⟩

/-- With a numeric (camera) source the whole streaming phase performs no
buffer write. -/
lemma streamingPhase_ok_numeric (st : St) (pfp : Bool) (out : RunOutcome)
    (hn : strIsNumeric st.d.videoSource = true)
    (h : streamingPhase env st pfp = .ok out) :
    out.final.written = st.written ∧ out.final.d.timesIndex = st.d.timesIndex := by
  have ha := allocSt_fields env st
  cases ho : (env.videoCapture (capSourceOf st.d.videoSource)).opened
  · rw [streamingPhase_eq_notOpened env st pfp ho] at h
    cases h
    exact ⟨ha.2.2.1, ha.2.1⟩
  · rw [streamingPhase_eq_opened env st pfp ho] at h
    cases hr : runLoop env pfp (allocSt env st)
        (env.videoCapture (capSourceOf st.d.videoSource)).frames
    · rw [hr] at h
      exact absurd h (by simp)
    · rename_i st2
      rw [hr] at h
      have hn1 : strIsNumeric (allocSt env st).d.videoSource = true := by
        rw [ha.1]
        exact hn
      have hl := runLoop_ok_numeric env pfp
        (env.videoCapture (capSourceOf st.d.videoSource)).frames _ st2 hn1 hr
      have hf := (postLoop_ok_out _ _ _ h).1
      refine ⟨?_, ?_⟩
      · rw [hf, hl.1, ha.2.2.1]
      · rw [hf, hl.2, ha.2.1]

/-- Starting from a fresh (never-written, unallocated) state, a normal
return of the streaming phase satisfies the timing invariant, and any
reported statistics are `np.average`, `np.amax`, `np.amin` of the
nonempty filled slice of the final state. -/
lemma streamingPhase_ok_stats (st : St) (pfp : Bool) (out : RunOutcome)
    (hi : TimingInv st) (htn : st.d.times = none)
    (h : streamingPhase env st pfp = .ok out) :
    TimingInv out.final ∧
    (∀ q, out.stats = some q →
      (filledSlice out.final).isEmpty = false ∧
      q = (npAverage (filledSlice out.final), npAmax (filledSlice out.final),
           npAmin (filledSlice out.final))) := by
  have hi1 : TimingInv (allocSt env st) := allocSt_inv env st hi htn
  cases ho : (env.videoCapture (capSourceOf st.d.videoSource)).opened
  · rw [streamingPhase_eq_notOpened env st pfp ho] at h
    cases h
    refine ⟨timingInv_fields (allocSt env st) _ rfl rfl rfl hi1, ?_⟩
    intro q hq
    exact absurd hq (by simp)
  · rw [streamingPhase_eq_opened env st pfp ho] at h
    cases hr : runLoop env pfp (allocSt env st)
        (env.videoCapture (capSourceOf st.d.videoSource)).frames
    · rw [hr] at h
      exact absurd h (by simp)
    · rename_i st2
      rw [hr] at h
      have hi2 : TimingInv st2 := runLoop_ok_inv env pfp _ _ st2 hr hi1
      have hp := postLoop_ok_out _ _ _ h
      rw [hp.1]
      exact ⟨hi2, hp.2.2.2.2⟩

lemma capSourceOf_file (src : String) (hn : strIsNumeric src = false) :
    capSourceOf src = .file src := by
  simp [capSourceOf, hn]

lemma detectAndDisplay_err (st : St) (frame : Frame) (pfp : Bool) (e : PyErr)
    (h : detect env st frame pfp = .error e) :
    detectAndDisplay env st frame pfp = .error e := by
  unfold detectAndDisplay
  rw [h]

lemma start_eq_noImage (st : St) (pfp : Bool) (h : truthy st.d.image = false) :
    start env st pfp = streamingPhase env st pfp := by
  simp [start, h]

lemma start_eq_image (st : St) (pfp : Bool) (himg : truthy st.d.image = true) :
    start env st pfp =
      match detectAndDisplay env { st with imreadCalls := st.imreadCalls + 1 }
          (env.imread (st.d.image.getD "")) pfp with
      | .error e => .error e
      | .ok st2 =>
        if (takeKey env st2).1 = 27 then
          .ok { exitCode := 0, reachedStreaming := false, enteredLoop := false,
                stats := none, final := (takeKey env st2).2 }
        else streamingPhase env (takeKey env st2).2 pfp := by
  simp [start, himg]

lemma foldlMax_init_le : ∀ (xs : List ℚ) (x : ℚ), x ≤ xs.foldl max x := by
  intro xs
  induction xs with
  | nil => intro x; exact le_refl x
  | cons z zs ih =>
      intro x
      rw [List.foldl_cons]
      exact le_trans (le_max_left x z) (ih (max x z))

lemma foldlMax_mem : ∀ (xs : List ℚ) (x : ℚ), xs.foldl max x ∈ x :: xs := by
  intro xs
  induction xs with
  | nil => intro x; simp
  | cons y ys ih =>
      intro x
      rw [List.foldl_cons]
      have h := ih (max x y)
      rw [List.mem_cons] at h
      rcases h with h | h
      · rcases max_choice x y with hm | hm
        · rw [h, hm]
          exact List.mem_cons_self x (y :: ys)
        · rw [h, hm]
          exact List.mem_cons_of_mem x (List.mem_cons_self y ys)
      · exact List.mem_cons_of_mem x (List.mem_cons_of_mem y h)

lemma foldlMax_ub : ∀ (xs : List ℚ) (x y : ℚ), y ∈ x :: xs → y ≤ xs.foldl max x := by
  intro xs
  induction xs with
  | nil =>
      intro x y hy
      rw [List.mem_singleton] at hy
      rw [hy]
      exact le_refl x
  | cons z zs ih =>
      intro x y hy
      rw [List.foldl_cons]
      rw [List.mem_cons] at hy
      rcases hy with hy | hy
      · rw [hy]
        exact le_trans (le_max_left x z) (foldlMax_init_le zs (max x z))
      · rw [List.mem_cons] at hy
        rcases hy with hy | hy
        · rw [hy]
          exact le_trans (le_max_right x z) (foldlMax_init_le zs (max x z))
        · exact ih (max x z) y (List.mem_cons_of_mem _ hy)

lemma foldlMin_le_init : ∀ (xs : List ℚ) (x : ℚ), xs.foldl min x ≤ x := by
  intro xs
  induction xs with
  | nil => intro x; exact le_refl x
  | cons z zs ih =>
      intro x
      rw [List.foldl_cons]
      exact le_trans (ih (min x z)) (min_le_left x z)

lemma foldlMin_mem : ∀ (xs : List ℚ) (x : ℚ), xs.foldl min x ∈ x :: xs := by
  intro xs
  induction xs with
  | nil => intro x; simp
  | cons y ys ih =>
      intro x
      rw [List.foldl_cons]
      have h := ih (min x y)
      rw [List.mem_cons] at h
      rcases h with h | h
      · rcases min_choice x y with hm | hm
        · rw [h, hm]
          exact List.mem_cons_self x (y :: ys)
        · rw [h, hm]
          exact List.mem_cons_of_mem x (List.mem_cons_self y ys)
      · exact List.mem_cons_of_mem x (List.mem_cons_of_mem y h)

lemma foldlMin_lb : ∀ (xs : List ℚ) (x y : ℚ), y ∈ x :: xs → xs.foldl min x ≤ y := by
  intro xs
  induction xs with
  | nil =>
      intro x y hy
      rw [List.mem_singleton] at hy
      rw [hy]
      exact le_refl x
  | cons z zs ih =>
      intro x y hy
      rw [List.foldl_cons]
      rw [List.mem_cons] at hy
      rcases hy with hy | hy
      · rw [hy]
        exact le_trans (foldlMin_le_init zs (min x z)) (min_le_left x z)
      · rw [List.mem_cons] at hy
        rcases hy with hy | hy
        · rw [hy]
          exact le_trans (foldlMin_le_init zs (min x z)) (min_le_right x z)
        · exact ih (min x z) y (List.mem_cons_of_mem _ hy)

lemma npAmax_spec (l : List ℚ) (h : l ≠ []) :
    npAmax l ∈ l ∧ ∀ y ∈ l, y ≤ npAmax l := by
  cases l with
  | nil => exact absurd rfl h
  | cons x xs => exact ⟨foldlMax_mem xs x, fun y hy => foldlMax_ub xs x y hy⟩

lemma npAmin_spec (l : List ℚ) (h : l ≠ []) :
    npAmin l ∈ l ∧ ∀ y ∈ l, npAmin l ≤ y := by
  cases l with
  | nil => exact absurd rfl h
  | cons x xs => exact ⟨foldlMin_mem xs x, fun y hy => foldlMin_lb xs x y hy⟩

lemma npAverage_mul (l : List ℚ) (h : l ≠ []) :
    npAverage l * (l.length : ℚ) = l.sum := by
  unfold npAverage
  have hlen : (l.length : ℚ) ≠ 0 := by
    have := List.length_pos.mpr h
    exact_mod_cast Nat.pos_iff_ne_zero.mp this
  exact div_mul_cancel₀ l.sum hlen

lemma isEmpty_false_ne_nil (l : List ℚ) (h : l.isEmpty = false) : l ≠ [] := by
  cases l with
  | nil => simp at h
  | cons x xs => simp

lemma preprocessRun_cons (st : St) (f : Frame) (rest : List Frame) :
    preprocessRun env st (f :: rest) = preprocessRun env (preprocess env st f).1 rest := rfl

/-- Once the latch has fired, iterated preprocessing never changes the
working resolution again. -/
lemma preprocessRun_stable : ∀ (frames : List Frame) (st : St),
    st.d.isFirstFrame = false →
    (preprocessRun env st frames).d.displaySize = st.d.displaySize ∧
    (preprocessRun env st frames).d.isFirstFrame = false := by
  intro frames
  induction frames with
  | nil => intro st h; exact ⟨rfl, h⟩
  | cons f rest ih =>
      intro st h
      rw [preprocessRun_cons]
      have h1 : (preprocess env st f).1.d.displaySize = st.d.displaySize := by
        simp [preprocess_fst_eq, h]
      have h2 : (preprocess env st f).1.d.isFirstFrame = false := by
        simp [preprocess_fst_eq]
      have hr := ih _ h2
      exact ⟨by rw [hr.1, h1], hr.2⟩

end Lemmas

section Claims

/-- Claim C3: for every detection rectangle `(x, y, w, h)` returned in
working space, with scale factors `sx = original_width / working_width`
and `sy = original_height / working_height`, the `Region` emitted in
original-frame space is exactly `(x*sx, y*sy, w*sx, h*sy)` — the
original-space list of one model iteration is the working-space list
mapped through the pure linear `specRescale` transform, with no rounding
beyond exact rational arithmetic. -/
theorem spec_C3_rescale (env : CVEnv) (frame : Frame) (st : St) (m : Cascade) (c : Color) :
    (processModel env frame st (m, c)).origs =
      ((processModel env frame st (m, c)).procs).map
        (specRescale
          ((frame.width : ℚ) /
            ((((processModel env frame st (m, c)).st.d.displaySize.getD (0, 0)).1 : Nat) : ℚ))
          ((frame.height : ℚ) /
            ((((processModel env frame st (m, c)).st.d.displaySize.getD (0, 0)).2 : Nat) : ℚ))) := by
  simp only [processModel, specRescale, List.map_map]
  rfl

/-- Claim C7: the shape tag of every detection emitted for a model, in
both working space and original space, is the pure function of the
model's native window `shapeForWindow`: ELLIPSE exactly when the window
is square, RECTANGLE otherwise.  Holding for every state and frame, the
same shape is assigned to a model's detections throughout a run. -/
theorem spec_C7_shape :
    (∀ (env : CVEnv) (frame : Frame) (st : St) (m : Cascade) (c : Color) (r : Region),
        r ∈ (processModel env frame st (m, c)).origs → r.shape = shapeForWindow m.winW m.winH)
  ∧ (∀ (env : CVEnv) (frame : Frame) (st : St) (m : Cascade) (c : Color) (r : Region),
        r ∈ (processModel env frame st (m, c)).procs → r.shape = shapeForWindow m.winW m.winH)
  ∧ (∀ w h : Nat, shapeForWindow w h = Shape.ELLIPSE ↔ w = h) := by
  refine ⟨?_, ?_, ?_⟩
  · intro env frame st m c r hr
    simp only [processModel, List.mem_map] at hr
    obtain ⟨rect, _, hrect⟩ := hr
    rw [← hrect]
    by_cases hw : m.winW = m.winH <;> simp [shapeForWindow, hw]
  · intro env frame st m c r hr
    simp only [processModel, List.mem_map] at hr
    obtain ⟨rect, _, hrect⟩ := hr
    rw [← hrect]
    by_cases hw : m.winW = m.winH <;> simp [shapeForWindow, hw]
  · intro w h
    by_cases hw : w = h <;> simp [shapeForWindow, hw]

/-- Witness for C7 at a concrete square-window model: the emitted region
carries the ELLIPSE shape dictated by `shapeForWindow`. -/
def envC7 : CVEnv :=
  { imread := fun _ => ⟨640, 480, 0⟩, videoCapture := fun _ => ⟨true, 0, []⟩,
    waitKey := fun _ => 0, clock := fun _ => 0,
    gray := fun d => d, resizeData := fun d _ => d, equalize := fun d => d }

def mC7 : Cascade := { winW := 24, winH := 24, detectMS := fun _ => [⟨1, 2, 3, 4⟩] }

def stC7 : St := mkSt [mC7] [(9, 9, 9)] "0" none

def fC7 : Frame := ⟨640, 480, 1⟩

def rC7 : Region := ⟨1, 2, 3, 4, (9, 9, 9), Shape.ELLIPSE⟩

theorem spec_C7_shape_witness :
    rC7 ∈ (processModel envC7 fC7 stC7 (mC7, (9, 9, 9))).procs ∧
    rC7.shape = shapeForWindow mC7.winW mC7.winH :=
  ⟨by decide, spec_C7_shape.2.1 envC7 fC7 stC7 mC7 (9, 9, 9) rC7 (by decide)⟩

/-- Claim C5: the working resolution is latched from the first frame
only.  After the latch has fired, `preprocess` leaves the cached working
resolution unchanged and resizes to it; the first call sets it to
`setOrientation` of the first frame; and across a whole run, the
resolution after processing `f0 :: frames` is `setOrientation f0`
whatever the later frames are. -/
theorem spec_C5_latch :
    (∀ (env : CVEnv) (st : St) (f : Frame), st.d.isFirstFrame = false →
        (preprocess env st f).1.d.displaySize = st.d.displaySize ∧
        (preprocess env st f).1.d.isFirstFrame = false ∧
        (preprocess env st f).2.width = (st.d.displaySize.getD (0, 0)).1 ∧
        (preprocess env st f).2.height = (st.d.displaySize.getD (0, 0)).2)
  ∧ (∀ (env : CVEnv) (st : St) (f : Frame), st.d.isFirstFrame = true →
        (preprocess env st f).1.d.displaySize = some (setOrientation f) ∧
        (preprocess env st f).1.d.isFirstFrame = false)
  ∧ (∀ (env : CVEnv) (st : St) (f0 : Frame) (frames : List Frame),
        st.d.isFirstFrame = true →
        (preprocessRun env st (f0 :: frames)).d.displaySize = some (setOrientation f0)) := by
  refine ⟨?_, ?_, ?_⟩
  · intro env st f h
    refine ⟨?_, ?_, ?_, ?_⟩
    · simp [preprocess_fst_eq, h]
    · simp [preprocess_fst_eq]
    · rw [preprocess_snd_eq env st f h]
    · rw [preprocess_snd_eq env st f h]
  · intro env st f h
    constructor
    · simp [preprocess_fst_eq, h]
    · simp [preprocess_fst_eq]
  · intro env st f0 frames h
    rw [preprocessRun_cons]
    have h1 : (preprocess env st f0).1.d.displaySize = some (setOrientation f0) := by
      simp [preprocess_fst_eq, h]
    have h2 : (preprocess env st f0).1.d.isFirstFrame = false := by
      simp [preprocess_fst_eq]
    rw [(preprocessRun_stable env frames _ h2).1, h1]

/-- Witness for C5: with a landscape first frame and a portrait second
frame the working resolution stays the one computed from the first. -/
def envC5 : CVEnv :=
  { imread := fun _ => ⟨640, 480, 0⟩, videoCapture := fun _ => ⟨true, 0, []⟩,
    waitKey := fun _ => 0, clock := fun _ => 0,
    gray := fun d => d, resizeData := fun d _ => d, equalize := fun d => d }

def stC5 : St := mkSt [] [] "0" none

def fC5a : Frame := ⟨640, 480, 1⟩

def fC5b : Frame := ⟨100, 700, 2⟩

theorem spec_C5_latch_witness :
    (preprocessRun envC5 stC5 [fC5a, fC5b]).d.displaySize = some (setOrientation fC5a) ∧
    setOrientation fC5a ≠ setOrientation fC5b :=
  ⟨spec_C5_latch.2.2 envC5 stC5 fC5a [fC5b] rfl, by decide⟩

/-- Claim C9: the missing optional YAML file silently yields the empty
boundary configuration (not an error), and the detection step's result is
identical under any two ambient boundary configurations — the boundaries
are parsed but never consumed by `detect`. -/
theorem spec_C9_noninterference :
    (∀ cb : RawYaml, configBoundarysLoad false cb = ConfigBoundarys.missing)
  ∧ (∀ (cfg1 cfg2 : ConfigBoundarys) (env : CVEnv) (st : St) (frame : Frame) (pfp : Bool),
      detectWithConfig cfg1 env st frame pfp = detectWithConfig cfg2 env st frame pfp) :=
  ⟨fun _ => rfl, fun _ _ _ _ _ _ => rfl⟩

/-- Fixtures for claim C6: two configured models, one frame. -/
def envC6 : CVEnv :=
  { imread := fun _ => ⟨640, 480, 0⟩, videoCapture := fun _ => ⟨true, 0, []⟩,
    waitKey := fun _ => 0, clock := fun _ => 0,
    gray := fun d => d, resizeData := fun d _ => d, equalize := fun d => d }

def stC6 : St :=
  mkSt [{ winW := 24, winH := 24, detectMS := fun _ => [] },
        { winW := 30, winH := 20, detectMS := fun _ => [] }]
    [(255, 0, 0), (0, 255, 0)] "0" none

def fC6 : Frame := ⟨640, 480, 7⟩

/-- Claim C6 (code bug): with two configured models, one `detect` call on
one frame invokes `preprocess` twice — once per model inside the loop —
although the claim (and the docstring of `preprocess`, source line 54)
says the frame is preprocessed once and shared across the classifiers. -/
theorem spec_C6_code_bug :
    stC6.d.modelsCascade.length = 2 ∧ stC6.preprocessCalls = 0 ∧
    preprocessCallsOf (detect envC6 stC6 fC6 false) = some 2 :=
  ⟨rfl, rfl, rfl⟩

/-- Fixtures for claim C2: a non-numeric source whose capture reports one
frame but yields two (the variable-frame-rate edge case named by the
spec). -/
def envC2 : CVEnv :=
  { imread := fun _ => ⟨640, 480, 0⟩,
    videoCapture := fun _ => ⟨true, 1, [⟨640, 480, 7⟩, ⟨640, 480, 8⟩]⟩,
    waitKey := fun _ => 0, clock := fun n => (n : ℚ),
    gray := fun d => d, resizeData := fun d _ => d, equalize := fun d => d }

def stC2 : St := mkSt [] [] "video.mp4" none

/-- Claim C2 (code bug): the timing buffer is allocated with length 1,
detection is invoked twice, and the second `__end_time` write is NOT
prevented by any bounds check — the run aborts with numpy's
`IndexError` on the out-of-range assignment. -/
theorem spec_C2_code_bug :
    (envC2.videoCapture (capSourceOf stC2.d.videoSource)).frameCount = 1 ∧
    (envC2.videoCapture (capSourceOf stC2.d.videoSource)).frames.length = 2 ∧
    start envC2 stC2 false = .error .indexError :=
  ⟨rfl, rfl, rfl⟩

/-- Junk defaults used only to project normal outcomes out of `Except`. -/
def junkSt : St := mkSt [] [] "" none

def junkOutcome : RunOutcome := ⟨0, false, false, none, junkSt⟩

/-- Fixtures for claim C1: an image path is provided and the pressed key
is 32 (space), not escape. -/
def envC1 : CVEnv :=
  { imread := fun _ => ⟨640, 480, 0⟩, videoCapture := fun _ => ⟨true, 0, []⟩,
    waitKey := fun _ => 32, clock := fun _ => 0,
    gray := fun d => d, resizeData := fun d _ => d, equalize := fun d => d }

def stC1 : St := mkSt [] [] "0" (some "photo.png")

/-- Claim C1 counterexample: in single-image mode with a non-escape key
pressed, the run falls through to `cv.VideoCapture` and enters the
video-capture read loop — refuting "the streaming loop is never entered,
for any key pressed". -/
theorem spec_C1_counterexample :
    truthy stC1.d.image = true ∧
    enteredLoopOf (start envC1 stC1 false) = some true ∧
    reachedStreamingOf (start envC1 stC1 false) = some true :=
  ⟨rfl, rfl, rfl⟩

/-- Claim C1 (amended): when an image path is provided, the image is read
once and detect-and-display runs exactly once; if the key pressed at the
single-image `waitKey` is escape (27) the run terminates with exit status
0 without reaching streaming mode or its read loop; on any other key
control falls through into streaming mode. -/
theorem spec_C1_amended (env : CVEnv) (st : St) (pfp : Bool) (out : RunOutcome)
    (himg : truthy st.d.image = true)
    (h : start env st pfp = .ok out) :
    (env.waitKey st.waitKeyCount = 27 →
       out.reachedStreaming = false ∧ out.enteredLoop = false ∧ out.exitCode = 0 ∧
       out.final.detectCalls = st.detectCalls + 1 ∧
       out.final.imreadCalls = st.imreadCalls + 1)
  ∧ (env.waitKey st.waitKeyCount ≠ 27 → out.reachedStreaming = true) := by
  rw [start_eq_image env st pfp himg] at h
  cases hd : detectAndDisplay env { st with imreadCalls := st.imreadCalls + 1 }
      (env.imread (st.d.image.getD "")) pfp
  case error e =>
    rw [hd] at h
    exact absurd h (by simp)
  case ok st2 =>
    rw [hd] at h
    dsimp only at h
    obtain ⟨a, b, c, hdet⟩ := detectAndDisplay_ok env _ _ pfp st2 hd
    have hb := detect_ok_book env _ _ pfp st2 a b c hdet
    have hkey : (takeKey env st2).1 = env.waitKey st.waitKeyCount := by
      show env.waitKey st2.waitKeyCount = env.waitKey st.waitKeyCount
      rw [hb.2.1]
    constructor
    · intro hk
      have hk2 : (takeKey env st2).1 = 27 := by rw [hkey]; exact hk
      rw [if_pos hk2] at h
      cases h
      refine ⟨rfl, rfl, rfl, ?_, ?_⟩
      · show st2.detectCalls = st.detectCalls + 1
        rw [hb.2.2.2.2.1]
      · show st2.imreadCalls = st.imreadCalls + 1
        rw [hb.2.2.2.1]
    · intro hk
      have hk2 : ¬ (takeKey env st2).1 = 27 := by rw [hkey]; exact hk
      rw [if_neg hk2] at h
      exact streamingPhase_ok_reached env _ pfp out h

/-- Fixture for the C1 witness: same single-image setup, escape pressed. -/
def envC1e : CVEnv :=
  { imread := fun _ => ⟨640, 480, 0⟩, videoCapture := fun _ => ⟨true, 0, []⟩,
    waitKey := fun _ => 27, clock := fun _ => 0,
    gray := fun d => d, resizeData := fun d _ => d, equalize := fun d => d }

def outC1e : RunOutcome := ((start envC1e stC1 false).toOption).getD junkOutcome

/-- Witness for the amended C1, at a concrete escape-key run. -/
theorem spec_C1_amended_witness :
    truthy stC1.d.image = true ∧
    ((envC1e.waitKey stC1.waitKeyCount = 27 →
        outC1e.reachedStreaming = false ∧ outC1e.enteredLoop = false ∧
        outC1e.exitCode = 0 ∧ outC1e.final.detectCalls = stC1.detectCalls + 1 ∧
        outC1e.final.imreadCalls = stC1.imreadCalls + 1)
     ∧ (envC1e.waitKey stC1.waitKeyCount ≠ 27 → outC1e.reachedStreaming = true)) :=
  ⟨rfl, spec_C1_amended envC1e stC1 false outC1e rfl rfl⟩

/-- Claim C4: when no image short-circuit applies and the capture source
cannot be opened, `start` logs an error and returns exit status 1 without
entering the read loop; and any run that terminates normally (no
exception) with an openable source has exit status 0. -/
theorem spec_C4_exit (env : CVEnv) (st : St) (pfp : Bool) :
    (truthy st.d.image = false →
       (env.videoCapture (capSourceOf st.d.videoSource)).opened = false →
       ∃ fin, start env st pfp = .ok ⟨1, true, false, none, fin⟩ ∧
         fin.errorsLogged = st.errorsLogged + 1)
  ∧ (∀ out, start env st pfp = .ok out →
       (env.videoCapture (capSourceOf st.d.videoSource)).opened = true →
       out.exitCode = 0) := by
  constructor
  · intro himg ho
    rw [start_eq_noImage env st pfp himg]
    exact streamingPhase_notOpened env st pfp ho
  · intro out h ho
    cases himg : truthy st.d.image
    · rw [start_eq_noImage env st pfp himg] at h
      exact (streamingPhase_ok_opened env st pfp out ho h).1
    · rw [start_eq_image env st pfp himg] at h
      cases hd : detectAndDisplay env { st with imreadCalls := st.imreadCalls + 1 }
          (env.imread (st.d.image.getD "")) pfp
      case error e =>
        rw [hd] at h
        exact absurd h (by simp)
      case ok st2 =>
        rw [hd] at h
        dsimp only at h
        by_cases hk : (takeKey env st2).1 = 27
        · rw [if_pos hk] at h
          cases h
          rfl
        · rw [if_neg hk] at h
          obtain ⟨a, b, c, hdet⟩ := detectAndDisplay_ok env _ _ pfp st2 hd
          have hb := detect_ok_book env _ _ pfp st2 a b c hdet
          have ho2 : (env.videoCapture
              (capSourceOf (takeKey env st2).2.d.videoSource)).opened = true := by
            show (env.videoCapture (capSourceOf st2.d.videoSource)).opened = true
            rw [hb.1]
            exact ho
          exact (streamingPhase_ok_opened env _ pfp out ho2 h).1

/-- Fixtures for the C4 witness: one unopenable capture, one openable. -/
def envC4a : CVEnv :=
  { imread := fun _ => ⟨640, 480, 0⟩, videoCapture := fun _ => ⟨false, 0, []⟩,
    waitKey := fun _ => 0, clock := fun _ => 0,
    gray := fun d => d, resizeData := fun d _ => d, equalize := fun d => d }

def envC4b : CVEnv :=
  { imread := fun _ => ⟨640, 480, 0⟩, videoCapture := fun _ => ⟨true, 0, []⟩,
    waitKey := fun _ => 0, clock := fun _ => 0,
    gray := fun d => d, resizeData := fun d _ => d, equalize := fun d => d }

def stC4 : St := mkSt [] [] "0" none

def outC4b : RunOutcome := ((start envC4b stC4 false).toOption).getD junkOutcome

/-- Witness for C4: concrete unopenable and openable captures. -/
theorem spec_C4_exit_witness :
    (∃ fin, start envC4a stC4 false = .ok ⟨1, true, false, none, fin⟩ ∧
       fin.errorsLogged = stC4.errorsLogged + 1) ∧
    outC4b.exitCode = 0 :=
  ⟨(spec_C4_exit envC4a stC4 false).1 rfl rfl,
   (spec_C4_exit envC4b stC4 false).2 outC4b rfl rfl⟩

/-- Claim C10 (implicit condition mismatch): the `__end_time` write guard
(source not numeric) differs from the allocation guard (positive frame
count).  First conjunct: for every non-numeric source whose capture
reports a non-positive frame count but still yields a frame, the first
timing write targets the unallocated `None` buffer and the run aborts
with `TypeError`.  Second conjunct: for every purely numeric source, no
buffer write ever occurs during a normal run (written log and
`times_index` are unchanged), even if a buffer was allocated. -/
theorem spec_C10_mismatch :
    (∀ (models : List Cascade) (colors : List Color) (src : String) (env : CVEnv) (pfp : Bool),
       strIsNumeric src = false →
       (env.videoCapture (.file src)).opened = true →
       ¬ 0 < (env.videoCapture (.file src)).frameCount →
       (env.videoCapture (.file src)).frames ≠ [] →
       start env (mkSt models colors src none) pfp = .error .typeError)
  ∧ (∀ (env : CVEnv) (st : St) (pfp : Bool) (out : RunOutcome),
       strIsNumeric st.d.videoSource = true →
       start env st pfp = .ok out →
       out.final.written = st.written ∧ out.final.d.timesIndex = st.d.timesIndex) := by
  constructor
  · intro models colors src env pfp hn ho hfc hne
    have hsrc : capSourceOf (mkSt models colors src none).d.videoSource = CapSource.file src :=
      capSourceOf_file src hn
    have ho2 : (env.videoCapture
        (capSourceOf (mkSt models colors src none).d.videoSource)).opened = true := by
      rw [hsrc]
      exact ho
    rw [start_eq_noImage env (mkSt models colors src none) pfp rfl,
        streamingPhase_eq_opened env (mkSt models colors src none) pfp ho2]
    have halloc : allocSt env (mkSt models colors src none) = mkSt models colors src none := by
      unfold allocSt
      rw [hsrc]
      exact if_neg hfc
    rw [halloc, hsrc]
    cases hfr : (env.videoCapture (CapSource.file src)).frames with
    | nil => exact absurd hfr hne
    | cons f rest =>
        have hdd : detectAndDisplay env (mkSt models colors src none) f pfp =
            .error .typeError :=
          detectAndDisplay_err env _ f pfp _ (detect_noBuffer env _ f pfp hn rfl)
        have hrl : runLoop env pfp (mkSt models colors src none) (f :: rest) =
            .error .typeError := by
          unfold runLoop
          rw [hdd]
        rw [hrl]
  · intro env st pfp out hn h
    cases himg : truthy st.d.image
    · rw [start_eq_noImage env st pfp himg] at h
      exact streamingPhase_ok_numeric env st pfp out hn h
    · rw [start_eq_image env st pfp himg] at h
      cases hd : detectAndDisplay env { st with imreadCalls := st.imreadCalls + 1 }
          (env.imread (st.d.image.getD "")) pfp
      case error e =>
        rw [hd] at h
        exact absurd h (by simp)
      case ok st2 =>
        rw [hd] at h
        dsimp only at h
        obtain ⟨a, b, c, hdet⟩ := detectAndDisplay_ok env _ _ pfp st2 hd
        have hnum := detect_ok_numeric env { st with imreadCalls := st.imreadCalls + 1 }
          (env.imread (st.d.image.getD "")) pfp st2 a b c hn hdet
        by_cases hk : (takeKey env st2).1 = 27
        · rw [if_pos hk] at h
          cases h
          refine ⟨?_, ?_⟩
          · show st2.written = st.written
            rw [hnum.2.2]
          · show st2.d.timesIndex = st.d.timesIndex
            rw [hnum.2.1]
        · rw [if_neg hk] at h
          have hn2 : strIsNumeric (takeKey env st2).2.d.videoSource = true := by
            show strIsNumeric st2.d.videoSource = true
            have hb := detect_ok_book env _ _ pfp st2 a b c hdet
            rw [hb.1]
            exact hn
          have hsp := streamingPhase_ok_numeric env _ pfp out hn2 h
          refine ⟨?_, ?_⟩
          · rw [hsp.1]
            show st2.written = st.written
            rw [hnum.2.2]
          · rw [hsp.2]
            show st2.d.timesIndex = st.d.timesIndex
            rw [hnum.2.1]

/-- Fixtures for the C10 witness. -/
def envC10a : CVEnv :=
  { imread := fun _ => ⟨640, 480, 0⟩, videoCapture := fun _ => ⟨true, 0, [⟨640, 480, 3⟩]⟩,
    waitKey := fun _ => 0, clock := fun _ => 0,
    gray := fun d => d, resizeData := fun d _ => d, equalize := fun d => d }

def envC10b : CVEnv :=
  { imread := fun _ => ⟨640, 480, 0⟩, videoCapture := fun _ => ⟨true, 0, []⟩,
    waitKey := fun _ => 0, clock := fun _ => 0,
    gray := fun d => d, resizeData := fun d _ => d, equalize := fun d => d }

def stC10b : St := mkSt [] [] "0" none

def outC10b : RunOutcome := ((start envC10b stC10b false).toOption).getD junkOutcome

/-- Witness for C10: a concrete crashing non-numeric run and a concrete
write-free numeric run. -/
theorem spec_C10_mismatch_witness :
    start envC10a (mkSt [] [] "v" none) false = .error .typeError ∧
    (outC10b.final.written = stC10b.written ∧
     outC10b.final.d.timesIndex = stC10b.d.timesIndex) :=
  ⟨spec_C10_mismatch.1 [] [] "v" envC10a false rfl rfl (by decide) (by decide),
   spec_C10_mismatch.2 envC10b stC10b false outC10b rfl rfl⟩

/-- Claim C8: whenever a run of `start` from a fresh dispatcher reports
end-of-run statistics `(average, max, min)`, they are computed over
exactly the filled portion of the timing buffer — which coincides with
the chronological log of values actually written — and equal the
arithmetic mean, the maximum and the minimum of that nonempty prefix. -/
theorem spec_C8_stats (models : List Cascade) (colors : List Color) (src : String)
    (img : Option String) (env : CVEnv) (pfp : Bool) (out : RunOutcome) (q : ℚ × ℚ × ℚ)
    (h : start env (mkSt models colors src img) pfp = .ok out)
    (hq : out.stats = some q) :
    filledSlice out.final = out.final.written ∧
    filledSlice out.final ≠ [] ∧
    q.1 * ((filledSlice out.final).length : ℚ) = (filledSlice out.final).sum ∧
    q.2.1 ∈ filledSlice out.final ∧ (∀ x ∈ filledSlice out.final, x ≤ q.2.1) ∧
    q.2.2 ∈ filledSlice out.final ∧ (∀ x ∈ filledSlice out.final, q.2.2 ≤ x) := by
  have hmain : TimingInv out.final ∧
      (∀ q', out.stats = some q' →
        (filledSlice out.final).isEmpty = false ∧
        q' = (npAverage (filledSlice out.final), npAmax (filledSlice out.final),
              npAmin (filledSlice out.final))) := by
    have hi0 : TimingInv (mkSt models colors src img) := ⟨rfl, rfl, fun _ => rfl⟩
    cases himg : truthy (mkSt models colors src img).d.image
    · rw [start_eq_noImage env _ pfp himg] at h
      exact streamingPhase_ok_stats env _ pfp out hi0 rfl h
    · rw [start_eq_image env _ pfp himg] at h
      cases hd : detectAndDisplay env
          { mkSt models colors src img with
            imreadCalls := (mkSt models colors src img).imreadCalls + 1 }
          (env.imread ((mkSt models colors src img).d.image.getD "")) pfp
      case error e =>
        rw [hd] at h
        exact absurd h (by simp)
      case ok st2 =>
        rw [hd] at h
        dsimp only at h
        obtain ⟨a, b, c, hdet⟩ := detectAndDisplay_ok env _ _ pfp st2 hd
        have hi2 : TimingInv st2 := detect_ok_inv env _ _ pfp st2 a b c hdet
          (timingInv_fields (mkSt models colors src img) _ rfl rfl rfl hi0)
        have htn2 : st2.d.times = none :=
          detect_ok_times_none env _ _ pfp st2 a b c hdet rfl
        by_cases hk : (takeKey env st2).1 = 27
        · rw [if_pos hk] at h
          cases h
          exact absurd hq (by simp)
        · rw [if_neg hk] at h
          exact streamingPhase_ok_stats env _ pfp out (takeKey_inv env st2 hi2) htn2 h
  obtain ⟨hinv, hchar⟩ := hmain
  have hc := hchar q hq
  have hne := isEmpty_false_ne_nil _ hc.1
  refine ⟨hinv.1, hne, ?_, ?_, ?_, ?_, ?_⟩
  · rw [show q.1 = npAverage (filledSlice out.final) from by rw [hc.2]]
    exact npAverage_mul _ hne
  · rw [show q.2.1 = npAmax (filledSlice out.final) from by rw [hc.2]]
    exact (npAmax_spec _ hne).1
  · intro x hx
    rw [show q.2.1 = npAmax (filledSlice out.final) from by rw [hc.2]]
    exact (npAmax_spec _ hne).2 x hx
  · rw [show q.2.2 = npAmin (filledSlice out.final) from by rw [hc.2]]
    exact (npAmin_spec _ hne).1
  · intro x hx
    rw [show q.2.2 = npAmin (filledSlice out.final) from by rw [hc.2]]
    exact (npAmin_spec _ hne).2 x hx

/-- Fixtures for the C8 witness: a one-frame video file. -/
def envC8 : CVEnv :=
  { imread := fun _ => ⟨640, 480, 0⟩, videoCapture := fun _ => ⟨true, 1, [⟨640, 480, 3⟩]⟩,
    waitKey := fun _ => 0, clock := fun n => (n : ℚ),
    gray := fun d => d, resizeData := fun d _ => d, equalize := fun d => d }

def stC8 : St := mkSt [] [] "vid.avi" none

def outC8 : RunOutcome := ((start envC8 stC8 false).toOption).getD junkOutcome

def qC8 : ℚ × ℚ × ℚ :=
  (npAverage (filledSlice outC8.final), npAmax (filledSlice outC8.final),
   npAmin (filledSlice outC8.final))

/-- Witness for C8 at a concrete bounded run that reports statistics. -/
theorem spec_C8_stats_witness :
    filledSlice outC8.final = outC8.final.written ∧
    filledSlice outC8.final ≠ [] ∧
    qC8.1 * ((filledSlice outC8.final).length : ℚ) = (filledSlice outC8.final).sum ∧
    qC8.2.1 ∈ filledSlice outC8.final ∧
    (∀ x ∈ filledSlice outC8.final, x ≤ qC8.2.1) ∧
    qC8.2.2 ∈ filledSlice outC8.final ∧
    (∀ x ∈ filledSlice outC8.final, qC8.2.2 ≤ x) :=
  spec_C8_stats [] [] "vid.avi" none envC8 false outC8 qC8 rfl rfl

end Claims

end Classifier
